import Mathlib

/-!
Verification of the trading-day calendar and market scheduler
(`trading_days.py`, `market_scheduler.py`).

The Python code is shallowly embedded: dates are days since the
proleptic-Gregorian epoch 0000-03-01 with civil (year, month, day)
fields recovered arithmetically; the external calendar source
(`ak.tool_trade_date_hist_sina`) is an oracle parameter returning,
per loop iteration, either `none` (the call raised, or returned an
empty/None frame — all of which contribute nothing to the cache) or
`some` set of date strings; the mutable `TradingCalendar` object is
explicit state threaded through every method.  A ghost counter
`fetch_calls` records each consultation of the external source so
that "performs no external fetch" is a provable statement.
-/

/-! ## Dates

Python `datetime.date` restricted to what the code uses: ordinal day
arithmetic (`timedelta(days=1)`), `.weekday()` (Monday = 0), `.year`,
and `strftime('%Y-%m-%d')`.  `absDay` counts days since 0000-03-01
(a Wednesday), and the civil fields are recovered with the standard
era/year-of-era decomposition of the Gregorian calendar. -/

structure Date where
  absDay : Nat
deriving DecidableEq, Repr

/-- Civil (year, month, day) from a day count since 0000-03-01. -/
def civil_from_days (z : Nat) : Nat × Nat × Nat :=
  let era := z / 146097
  let doe := z % 146097
  let yoe := (doe - doe / 1460 + doe / 36524 - doe / 146096) / 365
  let y0 := yoe + era * 400
  let doy := doe - (365 * yoe + yoe / 4 - yoe / 100)
  let mp := (5 * doy + 2) / 153
  let d := doy - (153 * mp + 2) / 5 + 1
  let m := if mp < 10 then mp + 3 else mp - 9
  (if m ≤ 2 then y0 + 1 else y0, m, d)

/-- Day count since 0000-03-01 from a civil date (valid for year ≥ 1). -/
def days_from_civil (y m d : Nat) : Nat :=
  let y0 := if m ≤ 2 then y - 1 else y
  let era := y0 / 400
  let yoe := y0 % 400
  let mp := if 2 < m then m - 3 else m + 9
  let doy := (153 * mp + 2) / 5 + d - 1
  let doe := yoe * 365 + yoe / 4 - yoe / 100 + doy
  era * 146097 + doe

def Date.year (d : Date) : Int := ((civil_from_days d.absDay).1 : Int)

def Date.month (d : Date) : Nat := (civil_from_days d.absDay).2.1

def Date.day (d : Date) : Nat := (civil_from_days d.absDay).2.2

/-- Python `date.weekday()`: Monday = 0, …, Sunday = 6.
0000-03-01 was a Wednesday (= 2). -/
def Date.weekday (d : Date) : Nat := (d.absDay + 2) % 7

/-- `date + timedelta(days=n)`. -/
def Date.addDays (d : Date) (n : Nat) : Date := ⟨d.absDay + n⟩

/-- Zero-pad to two digits, as `%m` / `%d` do. -/
def pad2 (n : Nat) : String := if n < 10 then "0" ++ toString n else toString n

/-- `date.strftime('%Y-%m-%d')` (years in scope all have four digits). -/
def Date.dateStr (d : Date) : String :=
  toString (civil_from_days d.absDay).1 ++ "-" ++ pad2 d.month ++ "-" ++ pad2 d.day

/-- Python `datetime`: a date plus wall-clock time. -/
structure DateTime where
  date : Date
  hour : Nat
  minute : Nat
  second : Nat
deriving DecidableEq, Repr

/-! ## TradingCalendar

State of a `TradingCalendar` object (`__init__`): the cached set of
trading-date strings, the reference year of the last fetch, and the
ghost count of external-source calls. `_fetch_year_range` is the
constant 2. -/

structure CalState where
  trading_days : Finset String
  last_fetch_year : Option Int
  fetch_calls : Nat
deriving DecidableEq

def CalState.init : CalState := ⟨∅, none, 0⟩

/-- The external source consulted once per year-loop iteration:
`none` models a raised exception or a None/empty frame (no rows kept),
`some df` the full `trade_date` column as strings. -/
def FetchOracle : Type := Int → Option (Finset String)

/-- The `for y in range(year - 2, year + 3)` iteration order. -/
def years_list (year : Int) : List Int :=
  (List.range 5).map (fun i => year - 2 + (i : Int))

/-- The body of the per-year loop in `_fetch_trading_days`: each
iteration calls the source once (counted), and on success keeps the
rows whose `trade_date` starts with `str(y)`; a per-year failure is
caught and skipped. -/
def fetch_loop (oracle : FetchOracle) :
    List Int → Finset String → Nat → Finset String × Nat
  | [], acc, calls => (acc, calls)
  | y :: ys, acc, calls =>
    match oracle y with
    | some df =>
        fetch_loop oracle ys
          (acc ∪ df.filter (fun s => (toString y).isPrefixOf s)) (calls + 1)
    | none => fetch_loop oracle ys acc (calls + 1)

/-- What a fresh fetch for reference year `year` collects, starting
from the empty set (the local `trading_days = set()`). -/
def fetched_union (oracle : FetchOracle) (year : Int) : Finset String :=
  (fetch_loop oracle (years_list year) ∅ 0).1

/-- `TradingCalendar._fetch_trading_days` (the spec's `refreshCache`):
memoized on `_last_fetch_year`; otherwise reruns the year loop,
replaces the cached set wholesale and records the reference year —
even when the collected set is empty.  (The outer `try` only wraps
code whose failures are already caught per year, so its `except`
branch is unreachable in this model.) -/
def fetch_trading_days (oracle : FetchOracle) (target_year : Int)
    (s : CalState) : Finset String × CalState :=
  if s.last_fetch_year = some target_year then
    (s.trading_days, s)
  else
    let r := fetch_loop oracle (years_list target_year) ∅ s.fetch_calls
    (r.1, ⟨r.1, some target_year, r.2⟩)

/-- `TradingCalendar.is_trading_day`: weekend short-circuit, then the
cached calendar when non-empty, else the weekday fallback.  (The
`try` around the lookup cannot fail in this model — the fetch already
recovers internally — so the `except` fallback branch is dead.) -/
def is_trading_day (oracle : FetchOracle) (d : Date) (s : CalState) :
    Bool × CalState :=
  if 5 ≤ d.weekday then (false, s)
  else
    let r := fetch_trading_days oracle d.year s
    if r.1 = ∅ then (decide (d.weekday < 5), r.2)
    else (decide (d.dateStr ∈ r.1), r.2)

/-- `TradingCalendar.get_next_trading_day`, inner loop: `max_days`
candidates starting at `check_date`, threading calendar state. -/
def gntd_go (oracle : FetchOracle) :
    Nat → Date → CalState → Option Date × CalState
  | 0, _, s => (none, s)
  | n + 1, c, s =>
    let r := is_trading_day oracle c s
    if r.1 then (some c, r.2) else gntd_go oracle n (c.addDays 1) r.2

/-- `TradingCalendar.get_next_trading_day`: scan forward from
tomorrow, at most `max_days` candidates, `none` if no match. -/
def get_next_trading_day (oracle : FetchOracle) (d : Date) (max_days : Nat)
    (s : CalState) : Option Date × CalState :=
  gntd_go oracle max_days (d.addDays 1) s

/-- `TradingCalendar.is_market_open_time`: false on non-trading days,
else the two inclusive HHMM session windows (seconds are discarded). -/
def is_market_open_time (oracle : FetchOracle) (t : DateTime)
    (s : CalState) : Bool × CalState :=
  let r := is_trading_day oracle t.date s
  if r.1 = false then (false, r.2)
  else
    let time_value := t.hour * 100 + t.minute
    (decide ((930 ≤ time_value ∧ time_value ≤ 1130) ∨
             (1300 ≤ time_value ∧ time_value ≤ 1500)), r.2)

/-! Spec-side companions used to state what the stateful scan
computes. -/

/-- The trading-day answer as a pure function of the oracle, matching
`is_trading_day` on any state whose cache agrees with the oracle. -/
def is_trading_day_pure (oracle : FetchOracle) (d : Date) : Bool :=
  if 5 ≤ d.weekday then false
  else if fetched_union oracle d.year = ∅ then decide (d.weekday < 5)
  else decide (d.dateStr ∈ fetched_union oracle d.year)

/-- A calendar state whose cache, if populated, holds exactly what a
fetch from this oracle produces (true initially and preserved by
every method). -/
def good_state (oracle : FetchOracle) (s : CalState) : Prop :=
  ∀ y, s.last_fetch_year = some y → s.trading_days = fetched_union oracle y

/-- The consecutive candidate dates `c, c+1, …, c+(n-1)`. -/
def candidates (c : Date) : Nat → List Date
  | 0 => []
  | n + 1 => c :: candidates (c.addDays 1) n

/-! ## MarketScheduler

The task callback is opaque up to its behaviour when invoked: it
either returns normally or raises.  Invocations are counted by a
ghost field so that "invoked exactly once" is provable.  The `run()`
loop consumes a trace of per-cycle environments: whether the daily
trigger is due, what `is_trading_day()` answers, and whether a
SIGINT/SIGTERM arrives during this cycle's 30-second sleep. -/

inductive TaskResult
  | ok
  | raises
deriving DecidableEq, Repr

/-- Invoking the bare callback: `.raises` models a raised exception
that would propagate without the safe-run wrapper. -/
def invoke_task : TaskResult → Except String Unit
  | .ok => .ok ()
  | .raises => .error "task failed"

/-- `MarketScheduler` plus its `GracefulShutdown` handler:
`has_job` — the daily trigger is registered with the schedule library;
`task_callback` — `_task_callback`; `invocations` — ghost count of
callback invocations; `running` — `_running`;
`shutdown_requested` — the `GracefulShutdown` flag. -/
structure SchedState where
  has_job : Bool
  task_callback : Option TaskResult
  invocations : Nat
  running : Bool
  shutdown_requested : Bool
deriving DecidableEq, Repr

def SchedState.init : SchedState := ⟨false, none, 0, false, false⟩

/-- `MarketScheduler._safe_run_task`: nothing happens without a
callback; otherwise the callback is invoked once and any exception it
raises is caught and logged, never rethrown. -/
def safe_run_task (s : SchedState) : SchedState :=
  match s.task_callback with
  | none => s
  | some t =>
    let s1 := { s with invocations := s.invocations + 1 }
    match invoke_task t with
    | .ok _ => s1
    | .error _ => s1

/-- `MarketScheduler.set_daily_task`: store the callback, register
the daily trigger, and when `run_immediately` is set run the task
once synchronously — gated on `is_trading_day()` (passed in as
`is_trading_today`, the answer of the global calendar for today). -/
def set_daily_task (is_trading_today : Bool) (t : TaskResult)
    (run_immediately : Bool) (s : SchedState) : SchedState :=
  let s1 := { s with task_callback := some t, has_job := true }
  if run_immediately then
    if is_trading_today then safe_run_task s1 else s1
  else s1

/-- One poll cycle's environment: is the trigger due, what does
`is_trading_day()` answer, and does a shutdown signal arrive during
the sleep that follows `run_pending()`. -/
structure Env where
  due : Bool
  trading : Bool
  signal_arrives : Bool
deriving DecidableEq, Repr

/-- `schedule.run_pending()`: a due trigger fires `scheduled_job`,
which re-checks `_should_execute_task()` and either runs the task
through the safe wrapper or skips. -/
def run_pending (e : Env) (s : SchedState) : SchedState :=
  if s.has_job && e.due then
    if e.trading then safe_run_task s else s
  else s

/-- One iteration of the `run()` loop body: `run_pending()`, then the
30-second sleep during which a signal may set the shutdown flag
(idempotently, under the handler's lock). -/
def loop_iter (e : Env) (s : SchedState) : SchedState :=
  let s1 := run_pending e s
  if e.signal_arrives then { s1 with shutdown_requested := true } else s1

/-- The `while self._running and not ... should_shutdown` loop of
`MarketScheduler.run`, over a finite trace of poll cycles. -/
def run_loop : List Env → SchedState → SchedState
  | [], s => s
  | e :: tr, s =>
    if s.running && !s.shutdown_requested then run_loop tr (loop_iter e s)
    else s

/-- `MarketScheduler.run`: set `_running` and enter the loop. -/
def run (tr : List Env) (s : SchedState) : SchedState :=
  run_loop tr { s with running := true }

/-- `MarketScheduler.stop`: clear `_running`. -/
def stop (s : SchedState) : SchedState := { s with running := false }

/-! ## Concrete instances used in witnesses -/

/-- An oracle for which every external call fails. -/
def fail_oracle : FetchOracle := fun _ => none

def d20240101 : Date := ⟨days_from_civil 2024 1 1⟩

def d20240105 : Date := ⟨days_from_civil 2024 1 5⟩

def d20240106 : Date := ⟨days_from_civil 2024 1 6⟩

/-! ## Helper lemmas -/

theorem fetch_loop_calls (oracle : FetchOracle) (l : List Int) :
    ∀ (acc : Finset String) (c : Nat),
      (fetch_loop oracle l acc c).2 = c + l.length := by
  induction l with
  | nil => intro acc c; simp [fetch_loop]
  | cons y ys ih =>
    intro acc c
    cases h : oracle y with
    | some df => simp [fetch_loop, h, ih]; omega
    | none => simp [fetch_loop, h, ih]; omega

theorem fetch_loop_set_ind (oracle : FetchOracle) (l : List Int) :
    ∀ (acc : Finset String) (c c' : Nat),
      (fetch_loop oracle l acc c).1 = (fetch_loop oracle l acc c').1 := by
  induction l with
  | nil => intro acc c c'; rfl
  | cons y ys ih =>
    intro acc c c'
    cases h : oracle y with
    | some df => simp [fetch_loop, h]; exact ih _ _ _
    | none => simp [fetch_loop, h]; exact ih _ _ _

theorem fetch_post_year (oracle : FetchOracle) (y : Int) (s : CalState) :
    (fetch_trading_days oracle y s).2.last_fetch_year = some y := by
  unfold fetch_trading_days
  by_cases h : s.last_fetch_year = some y
  · simp [h]
  · simp [h]

theorem fetch_post_set (oracle : FetchOracle) (y : Int) (s : CalState)
    (hg : good_state oracle s) :
    (fetch_trading_days oracle y s).1 = fetched_union oracle y ∧
    (fetch_trading_days oracle y s).2.trading_days = fetched_union oracle y := by
  unfold fetch_trading_days
  by_cases h : s.last_fetch_year = some y
  · simp [h]; exact hg y h
  · simp [h, fetched_union, fetch_loop_set_ind oracle (years_list y) ∅ s.fetch_calls 0]

theorem fetch_preserves_good (oracle : FetchOracle) (y : Int) (s : CalState)
    (hg : good_state oracle s) :
    good_state oracle (fetch_trading_days oracle y s).2 := by
  intro y' hy'
  have h1 := fetch_post_year oracle y s
  rw [h1] at hy'
  cases hy'
  exact (fetch_post_set oracle y s hg).2

theorem fetch_memo (oracle : FetchOracle) (y : Int) (s : CalState)
    (h : s.last_fetch_year = some y) :
    fetch_trading_days oracle y s = (s.trading_days, s) := by
  unfold fetch_trading_days
  simp [h]

theorem fetch_memo_after (oracle : FetchOracle) (y : Int) (s : CalState) :
    fetch_trading_days oracle y (fetch_trading_days oracle y s).2
      = ((fetch_trading_days oracle y s).2.trading_days,
         (fetch_trading_days oracle y s).2) :=
  fetch_memo oracle y _ (fetch_post_year oracle y s)

theorem is_trading_day_eq_pure (oracle : FetchOracle) (d : Date) (s : CalState)
    (hg : good_state oracle s) :
    (is_trading_day oracle d s).1 = is_trading_day_pure oracle d ∧
    good_state oracle (is_trading_day oracle d s).2 := by
  unfold is_trading_day is_trading_day_pure
  by_cases hw : 5 ≤ d.weekday
  · simp [hw]; exact hg
  · have hs := fetch_post_set oracle d.year s hg
    have hgood := fetch_preserves_good oracle d.year s hg
    simp [hw, hs.1]
    by_cases he : fetched_union oracle d.year = ∅
    · simp [he]; exact hgood
    · simp [he]; exact hgood

theorem fetch_loop_fail (oracle : FetchOracle)
    (hf : ∀ y, oracle y = none ∨ oracle y = some ∅) (l : List Int) :
    ∀ (acc : Finset String) (c : Nat), (fetch_loop oracle l acc c).1 = acc := by
  induction l with
  | nil => intro acc c; rfl
  | cons y ys ih =>
    intro acc c
    rcases hf y with h | h
    · simp [fetch_loop, h, ih]
    · simp [fetch_loop, h, ih]

theorem gntd_go_spec (oracle : FetchOracle) (n : Nat) :
    ∀ (c : Date) (s : CalState), good_state oracle s →
      (gntd_go oracle n c s).1
        = (candidates c n).find? (fun x => is_trading_day_pure oracle x) := by
  induction n with
  | zero => intro c s _; rfl
  | succ n ih =>
    intro c s hg
    have hb := is_trading_day_eq_pure oracle c s hg
    simp only [gntd_go]
    rw [hb.1]
    by_cases h : is_trading_day_pure oracle c = true
    · simp [candidates, List.find?, h]
    · simp only [Bool.not_eq_true] at h
      simp [candidates, List.find?, h]
      exact ih (c.addDays 1) _ hb.2

theorem mem_candidates (r : Date) (n : Nat) :
    ∀ (c : Date), r ∈ candidates c n →
      c.absDay ≤ r.absDay ∧ r.absDay < c.absDay + n := by
  induction n with
  | zero => intro c h; simp [candidates] at h
  | succ n ih =>
    intro c h
    simp only [candidates, List.mem_cons] at h
    rcases h with h | h
    · subst h; omega
    · have := ih (c.addDays 1) h
      simp only [Date.addDays] at this
      omega

theorem safe_run_has_job (s : SchedState) :
    (safe_run_task s).has_job = s.has_job := by
  unfold safe_run_task
  cases s.task_callback with
  | none => rfl
  | some t => cases t <;> rfl

theorem loop_iter_has_job (e : Env) (s : SchedState) :
    (loop_iter e s).has_job = s.has_job := by
  unfold loop_iter run_pending
  by_cases hd : s.has_job && e.due
  · by_cases ht : e.trading = true
    · by_cases hs : e.signal_arrives = true <;>
        simp [hd, ht, hs, safe_run_has_job]
    · by_cases hs : e.signal_arrives = true <;> simp [hd, ht, hs]
  · by_cases hs : e.signal_arrives = true <;> simp [hd, hs]

theorem run_loop_has_job (tr : List Env) :
    ∀ (s : SchedState), (run_loop tr s).has_job = s.has_job := by
  induction tr with
  | nil => intro s; rfl
  | cons e tr ih =>
    intro s
    unfold run_loop
    by_cases h : s.running && !s.shutdown_requested
    · simp [h, ih, loop_iter_has_job]
    · simp [h]

theorem run_loop_halted (tr : List Env) (s : SchedState)
    (h : s.running = false ∨ s.shutdown_requested = true) :
    run_loop tr s = s := by
  cases tr with
  | nil => rfl
  | cons e tr =>
    unfold run_loop
    rcases h with h | h <;> simp [h]

theorem run_loop_cons (e : Env) (tr : List Env) (s : SchedState)
    (hr : s.running = true) (hs : s.shutdown_requested = false) :
    run_loop (e :: tr) s = run_loop tr (loop_iter e s) := by
  rw [run_loop]
  simp [hr, hs]

/-! ## Claims -/

/-- C1 (counterexample): the claim asserts that on a trading day
`is_market_open_time` returns false at 11:30:01; but on Monday
2024-01-01 — a trading day here (weekday fallback, every fetch
failing) — the code returns true at 11:30:01, because seconds are
discarded by the `hour * 100 + minute` encoding. -/
theorem market_open_113001_true :
    (is_trading_day fail_oracle d20240101 CalState.init).1 = true
    ∧ (is_market_open_time fail_oracle ⟨d20240101, 11, 30, 1⟩
        CalState.init).1 = true := by
  decide

/-- C1 (amended): on a trading day `is_market_open_time` is true at
09:30:00, 15:00:00 and also at 11:30:01 (seconds are dropped, so the
whole minute 11:30 counts as open), and false at 09:29:59 and
12:59:59; on a non-trading day it is false at every clock time. -/
theorem is_market_open_time_boundaries (oracle : FetchOracle) (d : Date)
    (s : CalState) :
    ((is_trading_day oracle d s).1 = true →
      (is_market_open_time oracle ⟨d, 9, 30, 0⟩ s).1 = true
      ∧ (is_market_open_time oracle ⟨d, 15, 0, 0⟩ s).1 = true
      ∧ (is_market_open_time oracle ⟨d, 11, 30, 1⟩ s).1 = true
      ∧ (is_market_open_time oracle ⟨d, 9, 29, 59⟩ s).1 = false
      ∧ (is_market_open_time oracle ⟨d, 12, 59, 59⟩ s).1 = false)
    ∧ ((is_trading_day oracle d s).1 = false →
      ∀ hh mm ss, (is_market_open_time oracle ⟨d, hh, mm, ss⟩ s).1 = false) := by
  constructor
  · intro h
    refine ⟨?_, ?_, ?_, ?_, ?_⟩ <;> simp [is_market_open_time, h]
  · intro h hh mm ss
    simp [is_market_open_time, h]

/-- C1 witness: the amended boundary behaviour at the concrete
trading day Monday 2024-01-01 with an all-failing source. -/
theorem is_market_open_time_boundaries_witness :
    (is_market_open_time fail_oracle ⟨d20240101, 9, 30, 0⟩ CalState.init).1 = true
    ∧ (is_market_open_time fail_oracle ⟨d20240101, 15, 0, 0⟩ CalState.init).1 = true
    ∧ (is_market_open_time fail_oracle ⟨d20240101, 11, 30, 1⟩ CalState.init).1 = true
    ∧ (is_market_open_time fail_oracle ⟨d20240101, 9, 29, 59⟩ CalState.init).1 = false
    ∧ (is_market_open_time fail_oracle ⟨d20240101, 12, 59, 59⟩ CalState.init).1 = false :=
  (is_market_open_time_boundaries fail_oracle d20240101 CalState.init).1 (by decide)

/-- C2: when every consultation of the external source fails or
yields no dates, `is_trading_day` answers true for any weekday date,
from any state whose cache is not a stale non-empty one for the same
reference year; no exception escapes (the function is total — the
per-year loop catches every failure). -/
theorem is_trading_day_weekday_fallback (oracle : FetchOracle) (d : Date)
    (s : CalState)
    (hf : ∀ y, oracle y = none ∨ oracle y = some ∅)
    (hw : d.weekday < 5)
    (hc : s.last_fetch_year = some d.year → s.trading_days = ∅) :
    (is_trading_day oracle d s).1 = true := by
  have hw' : ¬ 5 ≤ d.weekday := by omega
  unfold is_trading_day
  simp only [hw', if_false]
  unfold fetch_trading_days
  by_cases h : s.last_fetch_year = some d.year
  · simp [h, hc h, hw]
  · simp [h, fetch_loop_fail oracle hf, hw]

/-- C2 witness: Monday 2024-01-01 from the fresh state with an
all-failing source. -/
theorem is_trading_day_weekday_fallback_witness :
    d20240101.weekday < 5
    ∧ (is_trading_day fail_oracle d20240101 CalState.init).1 = true :=
  ⟨by decide,
   is_trading_day_weekday_fallback fail_oracle d20240101 CalState.init
     (fun _ => Or.inl rfl) (by decide) (fun h => Option.noConfusion h)⟩

/-- C3: on a Saturday or Sunday `is_trading_day` returns false with
the state — cache, reference year and external-call count — exactly
unchanged: no fetch is performed. -/
theorem is_trading_day_weekend (oracle : FetchOracle) (d : Date)
    (s : CalState) (hw : d.weekday = 5 ∨ d.weekday = 6) :
    is_trading_day oracle d s = (false, s) := by
  have h5 : 5 ≤ d.weekday := by omega
  simp [is_trading_day, h5]

/-- C3 witness: Saturday 2024-01-06. -/
theorem is_trading_day_weekend_witness :
    is_trading_day fail_oracle d20240106 CalState.init = (false, CalState.init) :=
  is_trading_day_weekend fail_oracle d20240106 CalState.init (by decide)

/-- C4: after any fetch for reference year `y`, calling
`_fetch_trading_days` again for the same year touches nothing — same
cached set, identical state, zero additional external calls; a call
whose stored reference year differs from `y` runs a fresh fetch: five
external calls (one per year of `[y-2, y+2]`) and a cache that equals
exactly what the fresh fetch collects from the empty set, independent
of the previously cached contents (full replacement, no merge). -/
theorem fetch_trading_days_memoized (oracle : FetchOracle) (y : Int)
    (s : CalState) :
    (fetch_trading_days oracle y (fetch_trading_days oracle y s).2
      = ((fetch_trading_days oracle y s).2.trading_days,
         (fetch_trading_days oracle y s).2))
    ∧ (s.last_fetch_year ≠ some y →
        (fetch_trading_days oracle y s).1 = fetched_union oracle y
        ∧ (fetch_trading_days oracle y s).2.trading_days = fetched_union oracle y
        ∧ (fetch_trading_days oracle y s).2.fetch_calls = s.fetch_calls + 5
        ∧ (fetch_trading_days oracle y s).2.last_fetch_year = some y) := by
  refine ⟨fetch_memo_after oracle y s, fun h => ?_⟩
  have hlen : (years_list y).length = 5 := rfl
  unfold fetch_trading_days
  rw [if_neg h]
  refine ⟨?_, ?_, ?_, rfl⟩
  · exact fetch_loop_set_ind oracle (years_list y) ∅ s.fetch_calls 0
  · exact fetch_loop_set_ind oracle (years_list y) ∅ s.fetch_calls 0
  · show (fetch_loop oracle (years_list y) ∅ s.fetch_calls).2 = s.fetch_calls + 5
    rw [fetch_loop_calls, hlen]

/-- C4 witness: fetching 2024 from the fresh state, then again. -/
theorem fetch_trading_days_memoized_witness :
    CalState.init.last_fetch_year ≠ some 2024
    ∧ ((fetch_trading_days fail_oracle 2024
          (fetch_trading_days fail_oracle 2024 CalState.init).2
        = ((fetch_trading_days fail_oracle 2024 CalState.init).2.trading_days,
           (fetch_trading_days fail_oracle 2024 CalState.init).2))
      ∧ (fetch_trading_days fail_oracle 2024 CalState.init).1
          = fetched_union fail_oracle 2024
      ∧ (fetch_trading_days fail_oracle 2024 CalState.init).2.trading_days
          = fetched_union fail_oracle 2024
      ∧ (fetch_trading_days fail_oracle 2024 CalState.init).2.fetch_calls
          = CalState.init.fetch_calls + 5
      ∧ (fetch_trading_days fail_oracle 2024 CalState.init).2.last_fetch_year
          = some 2024) := by
  have h := fetch_trading_days_memoized fail_oracle 2024 CalState.init
  exact ⟨by decide, h.1, h.2 (by decide)⟩

/-- C5: whenever the stored reference year differs from `y` (a fetch
is attempted), the post-state's reference year is `y` — also when the
collected set is empty — so an immediately repeated call for `y` is
memoized: it returns the cached set with the state untouched (in
particular no further external calls). -/
theorem fetch_trading_days_updates_year (oracle : FetchOracle) (y : Int)
    (s : CalState) (h : s.last_fetch_year ≠ some y) :
    (fetch_trading_days oracle y s).2.last_fetch_year = some y
    ∧ fetch_trading_days oracle y (fetch_trading_days oracle y s).2
        = ((fetch_trading_days oracle y s).2.trading_days,
           (fetch_trading_days oracle y s).2) :=
  ⟨fetch_post_year oracle y s, fetch_memo_after oracle y s⟩

/-- C5 witness: with every external call failing the collected set is
empty, yet the reference year is recorded and the repeat call is
memoized. -/
theorem fetch_trading_days_updates_year_witness :
    CalState.init.last_fetch_year ≠ some 2024
    ∧ (fetch_trading_days fail_oracle 2024 CalState.init).2.trading_days = ∅
    ∧ ((fetch_trading_days fail_oracle 2024 CalState.init).2.last_fetch_year
        = some 2024
      ∧ fetch_trading_days fail_oracle 2024
          (fetch_trading_days fail_oracle 2024 CalState.init).2
        = ((fetch_trading_days fail_oracle 2024 CalState.init).2.trading_days,
           (fetch_trading_days fail_oracle 2024 CalState.init).2)) :=
  ⟨by decide, by decide,
   fetch_trading_days_updates_year fail_oracle 2024 CalState.init (by decide)⟩

/-- C6: from any state whose cache agrees with the oracle (true of
the fresh calendar and preserved by every lookup),
`get_next_trading_day` returns exactly the first of the candidates
`date+1, …, date+max_days` that is a trading day — `none`, not an
error, when there is no such candidate — and any returned date lies
strictly after the input, within the lookahead window, and is never a
Saturday or Sunday. -/
theorem get_next_trading_day_spec (oracle : FetchOracle) (d : Date)
    (max_days : Nat) (s : CalState) (hg : good_state oracle s) :
    (get_next_trading_day oracle d max_days s).1
      = (candidates (d.addDays 1) max_days).find?
          (fun x => is_trading_day_pure oracle x)
    ∧ ∀ r, (get_next_trading_day oracle d max_days s).1 = some r →
        d.absDay < r.absDay ∧ r.absDay ≤ d.absDay + max_days ∧ r.weekday < 5 := by
  have heq : (get_next_trading_day oracle d max_days s).1
      = (candidates (d.addDays 1) max_days).find?
          (fun x => is_trading_day_pure oracle x) :=
    gntd_go_spec oracle max_days (d.addDays 1) s hg
  refine ⟨heq, fun r hr => ?_⟩
  rw [heq] at hr
  have hmem := List.mem_of_find?_eq_some hr
  have hp : is_trading_day_pure oracle r = true := List.find?_some hr
  have hb := mem_candidates r max_days (d.addDays 1) hmem
  simp only [Date.addDays] at hb
  have hwd : r.weekday < 5 := by
    by_contra hcon
    have h5 : 5 ≤ r.weekday := by omega
    simp [is_trading_day_pure, h5] at hp
  exact ⟨by omega, by omega, hwd⟩

/-- C6 witness: scanning from Friday 2024-01-05 with an all-failing
source, instantiating the state hypothesis at the fresh calendar. -/
theorem get_next_trading_day_spec_witness :
    ((get_next_trading_day fail_oracle d20240105 10 CalState.init).1
      = (candidates (d20240105.addDays 1) 10).find?
          (fun x => is_trading_day_pure fail_oracle x)
    ∧ ∀ r, (get_next_trading_day fail_oracle d20240105 10 CalState.init).1
          = some r →
        d20240105.absDay < r.absDay ∧ r.absDay ≤ d20240105.absDay + 10
          ∧ r.weekday < 5) :=
  get_next_trading_day_spec fail_oracle d20240105 10 CalState.init
    (fun _ h => Option.noConfusion h)

/-- C7: `set_daily_task` with `run_immediately = true` invokes the
task exactly once — synchronously, within the registration call
itself — when today is a trading day, and not at all when it is not;
either way the daily trigger ends up registered. -/
theorem set_daily_task_immediate (t : TaskResult) (s : SchedState) :
    (set_daily_task true t true s).invocations = s.invocations + 1
    ∧ (set_daily_task false t true s).invocations = s.invocations
    ∧ (set_daily_task true t true s).has_job = true
    ∧ (set_daily_task false t true s).has_job = true := by
  cases t <;>
    simp [set_daily_task, safe_run_task, invoke_task]

/-- C8: a callback that raises when invoked is stopped by the
safe-run wrapper: the bare invocation is an error, yet
`_safe_run_task` returns normally with only the invocation recorded;
the `run` loop proceeds from such a state to its next poll cycle, and
the daily trigger stays registered over the entire remaining run. -/
theorem safe_run_task_isolates (s : SchedState) (tr : List Env)
    (hc : s.task_callback = some TaskResult.raises)
    (hj : s.has_job = true) :
    (∃ msg, invoke_task TaskResult.raises = Except.error msg)
    ∧ safe_run_task s = { s with invocations := s.invocations + 1 }
    ∧ (run_loop tr s).has_job = true
    ∧ (∀ e tr2, s.running = true → s.shutdown_requested = false →
        run_loop (e :: tr2) s = run_loop tr2 (loop_iter e s)) := by
  refine ⟨⟨"task failed", rfl⟩, ?_, ?_, ?_⟩
  · simp [safe_run_task, hc, invoke_task]
  · rw [run_loop_has_job]; exact hj
  · intro e tr2 hr hs
    exact run_loop_cons e tr2 s hr hs

/-- C8 witness: a state holding a raising callback and a registered
trigger (built by registering without an immediate run). -/
theorem safe_run_task_isolates_witness :
    (set_daily_task false TaskResult.raises false SchedState.init).task_callback
        = some TaskResult.raises
    ∧ ((∃ msg, invoke_task TaskResult.raises = Except.error msg)
      ∧ safe_run_task (set_daily_task false TaskResult.raises false SchedState.init)
          = { set_daily_task false TaskResult.raises false SchedState.init with
              invocations :=
                (set_daily_task false TaskResult.raises false
                    SchedState.init).invocations + 1 }
      ∧ (run_loop [] (set_daily_task false TaskResult.raises false
            SchedState.init)).has_job = true
      ∧ (∀ e tr2,
          (set_daily_task false TaskResult.raises false
              SchedState.init).running = true →
          (set_daily_task false TaskResult.raises false
              SchedState.init).shutdown_requested = false →
          run_loop (e :: tr2)
              (set_daily_task false TaskResult.raises false SchedState.init)
            = run_loop tr2 (loop_iter e
                (set_daily_task false TaskResult.raises false SchedState.init)))) :=
  ⟨by decide,
   safe_run_task_isolates (set_daily_task false TaskResult.raises false
     SchedState.init) [] (by decide) (by decide)⟩

/-- C9: the `run` loop stops at its very next condition check once
the shutdown flag is set — the rest of the trace is ignored and the
state (in particular the invocation count) no longer changes; it
stops likewise once `stop()` has cleared the running flag; and when a
signal arrives during a cycle's sleep, that cycle is the last one. -/
theorem run_loop_shutdown_exit (s : SchedState) (tr : List Env) :
    (s.shutdown_requested = true → run_loop tr s = s)
    ∧ ((stop s).running = false ∧ (∀ tr2, run_loop tr2 (stop s) = stop s))
    ∧ (∀ e tr2, s.running = true → s.shutdown_requested = false →
        e.signal_arrives = true →
        run_loop (e :: tr2) s = loop_iter e s) := by
  refine ⟨fun h => run_loop_halted tr s (Or.inr h), ⟨rfl, ?_⟩, ?_⟩
  · intro tr2
    exact run_loop_halted tr2 (stop s) (Or.inl rfl)
  · intro e tr2 hr hs hsig
    have hstep : run_loop (e :: tr2) s = run_loop tr2 (loop_iter e s) :=
      run_loop_cons e tr2 s hr hs
    have hshut : (loop_iter e s).shutdown_requested = true := by
      simp [loop_iter, hsig]
    rw [hstep]
    exact run_loop_halted tr2 (loop_iter e s) (Or.inr hshut)

/-- C9 witness: a running scheduler that receives a signal in the
first cycle executes that cycle and no more. -/
theorem run_loop_shutdown_exit_witness :
    ({ SchedState.init with running := true }.running = true
      ∧ { SchedState.init with running := true }.shutdown_requested = false)
    ∧ run_loop [⟨false, false, true⟩, ⟨true, true, false⟩]
        { SchedState.init with running := true }
      = loop_iter ⟨false, false, true⟩ { SchedState.init with running := true } :=
  ⟨⟨rfl, rfl⟩,
   (run_loop_shutdown_exit { SchedState.init with running := true }
       []).2.2 ⟨false, false, true⟩ [⟨true, true, false⟩] rfl rfl rfl⟩

/-- C10: `_safe_run_task` with no registered callback is a no-op: it
returns at once, raises nothing (it is total), and leaves every piece
of scheduler state exactly as it was. -/
theorem safe_run_task_no_callback (s : SchedState)
    (h : s.task_callback = none) :
    safe_run_task s = s := by
  simp [safe_run_task, h]

/-- C10 witness: the freshly constructed scheduler has no callback
and the wrapper leaves it untouched. -/
theorem safe_run_task_no_callback_witness :
    SchedState.init.task_callback = none
    ∧ safe_run_task SchedState.init = SchedState.init :=
  ⟨rfl, safe_run_task_no_callback SchedState.init rfl⟩
